import Mathlib

/-!
Verification of the trial-generation and balancing engine of the
visual-option-selection-study repository.

The definitions below are a shallow embedding of the TypeScript source
(`experiment.ts`): pure functions become Lean functions, the mutable
PRNG closure becomes explicit stream/position passing, machine numbers
become `Nat`/`Int` with explicit `%`, floats become `ℚ` (real-number
semantics of the IEEE operations involved; all quantities are small
integers and single divisions, and the claims proved are robust to the
rounding of `(state-1)/2147483646`), and code that can throw returns
`Except String _`.

Indexing conventions: TypeScript array indexing out of range yields
`undefined`; the embedding uses `List.getD` with an explicitly named
default.  All claims proved below establish that every index used by
the generator is in range, so the defaults are never consulted on the
paths the claims describe.
-/

/-- The three experimental conditions (`Condition` union type). -/
inductive Condition where
  | color
  | shape
  | combined
deriving DecidableEq, Repr, Fintype

/-- One entry of the `COLORS` table. -/
structure ColorDef where
  name : String
  hex : String
deriving DecidableEq, Repr

/-- One entry of the `SHAPES` table. -/
structure ShapeDef where
  name : String
  symbol : String
deriving DecidableEq, Repr

/-- `StimulusItem`: one clickable grid cell. -/
structure StimulusItem where
  id : String
  colorName : String
  colorHex : String
  shapeName : String
  shapeSymbol : String
deriving DecidableEq, Repr

/-- The intermediate color/shape pairs built by `buildCombinedItemsForTarget`. -/
structure PairDef where
  colorName : String
  colorHex : String
  shapeName : String
  shapeSymbol : String
deriving DecidableEq, Repr

/-- `TrialPlan`: one generated trial. -/
structure TrialPlan where
  id : String
  blockIndex : Nat
  blockOrder : Nat
  condition : Condition
  trialIndexInBlock : Nat
  isPractice : Bool
  targetType : Condition
  targetColor : String
  targetShape : String
  promptText : String
  correctItemId : String
  items : List StimulusItem
deriving DecidableEq, Repr

/-- `BlockPlan`: one condition block. -/
structure BlockPlan where
  blockIndex : Nat
  blockOrder : Nat
  condition : Condition
  practiceTrials : Nat
  measuredTrials : Nat
  trials : List TrialPlan
deriving DecidableEq, Repr

/-- The `LATIN_SQUARE_3` constant. -/
def LATIN_SQUARE_3 : List (List Condition) :=
  [[Condition.color, Condition.shape, Condition.combined],
   [Condition.shape, Condition.combined, Condition.color],
   [Condition.combined, Condition.color, Condition.shape]]

/-- The `COLORS` constant: 8 named colors with display hex codes. -/
def COLORS : List ColorDef :=
  [⟨"red", "#d62828"⟩, ⟨"blue", "#1d4ed8"⟩, ⟨"green", "#2f9e44"⟩,
   ⟨"orange", "#f97316"⟩, ⟨"purple", "#7c3aed"⟩, ⟨"yellow", "#eab308"⟩,
   ⟨"cyan", "#0891b2"⟩, ⟨"magenta", "#db2777"⟩]

/-- The `SHAPES` constant: 8 named shapes with render glyphs. -/
def SHAPES : List ShapeDef :=
  [⟨"circle", "●"⟩, ⟨"triangle", "▲"⟩, ⟨"square", "■"⟩,
   ⟨"diamond", "◆"⟩, ⟨"star", "★"⟩, ⟨"pentagon", "⬟"⟩,
   ⟨"hexagon", "⬢"⟩, ⟨"cross", "✚"⟩]

/-- `DEFAULT_PRACTICE_TRIALS`. -/
def DEFAULT_PRACTICE_TRIALS : Nat := 3

/-- `DEFAULT_MEASURED_TRIALS`. -/
def DEFAULT_MEASURED_TRIALS : Nat := 10

/-- Default used where TypeScript would read an out-of-range color index. -/
def defaultColor : ColorDef := ⟨"", ""⟩

/-- Default used where TypeScript would read an out-of-range shape index. -/
def defaultShape : ShapeDef := ⟨"", ""⟩

/-- `getLatinSquareOrder`: row `participantNumber % 3` of the Latin square. -/
def getLatinSquareOrder (participantNumber : Nat) : List Condition :=
  LATIN_SQUARE_3.getD (participantNumber % 3) []

/-- `seededRandom` seed normalization: `state = seed % 2147483647` with JS
truncated remainder, then `if (state <= 0) state += 2147483646`. -/
def lcgInit (seed : Int) : Int :=
  let state := seed.tmod 2147483647
  if state ≤ 0 then state + 2147483646 else state

/-- One LCG state update: `state = (state * 16807) % 2147483647`. -/
def lcgNext (s : Nat) : Nat := s * 16807 % 2147483647

/-- The LCG state after the `(k+1)`-th update, i.e. the state from which the
`k`-th value returned by the generator (0-based) is computed. -/
def lcgState (seed : Int) : Nat → Nat
  | 0 => lcgNext (lcgInit seed).toNat
  | k + 1 => lcgNext (lcgState seed k)

/-- The `k`-th value returned by the generator: `(state - 1) / 2147483646`. -/
def lcgValue (seed : Int) (k : Nat) : ℚ :=
  ((lcgState seed k : ℚ) - 1) / 2147483646

/-- A random stream: the sequence of values a `rand` closure would return.
The mutable closure of the source becomes this stream plus an explicit
position that each consumer advances. -/
abbrev RandStream := Nat → ℚ

/-- The stream produced by `seededRandom(seed)`. -/
def lcgStream (seed : Int) : RandStream := lcgValue seed

/-- The swap `[next[i], next[j]] = [next[j], next[i]]` on a list.  When either
index is out of range the list is returned unchanged (unreachable for the
in-contract draws proved below). -/
def listSwap {α : Type} (l : List α) (i j : Nat) : List α :=
  match l[i]?, l[j]? with
  | some a, some b => (l.set i b).set j a
  | _, _ => l

/-- The Fisher-Yates loop of `shuffle`: loop variable `i` runs downward to 1;
each step draws `j = floor(rand() * (i + 1))` and swaps positions `i`, `j`. -/
def fyLoop {α : Type} (rand : RandStream) : Nat → List α → Nat → List α
  | _, l, 0 => l
  | pos, l, i + 1 =>
      fyLoop rand (pos + 1)
        (listSwap l (i + 1) (⌊rand pos * ((i + 1 : Nat) + 1 : ℚ)⌋).toNat) i

/-- `shuffle(array, rand)`: fresh Fisher-Yates permutation; returns the
shuffled list together with the stream position after the `length - 1`
draws it consumes. -/
def shuffle {α : Type} (l : List α) (rand : RandStream) (pos : Nat) :
    List α × Nat :=
  (fyLoop rand pos l (l.length - 1), pos + (l.length - 1))

/-- The nested loops of `buildBalancedIndices` that push each index of the
input list `baseRepeats` times, in order. -/
def repeatEach (b : Nat) : List Nat → List Nat
  | [] => []
  | x :: xs => List.replicate b x ++ repeatEach b xs

/-- `buildBalancedIndices(length, count, rand)`: near-even multiset of
category indices.  Degenerate inputs return empty without consuming draws. -/
def buildBalancedIndices (length count : Int) (rand : RandStream) (pos : Nat) :
    List Nat × Nat :=
  if count ≤ 0 ∨ length ≤ 0 then ([], pos)
  else
    let L := length.toNat
    let baseRepeats := count.toNat / L
    let remainder := count.toNat % L
    let indices := repeatEach baseRepeats (List.range L)
    if remainder > 0 then
      let extras := shuffle (List.range L) rand pos
      shuffle (indices ++ extras.1.take remainder) rand extras.2
    else
      shuffle indices rand pos

/-- Item ids `item_1` .. `item_8`. -/
def itemIdOf (index : Nat) : String := "item_" ++ toString (index + 1)

/-- `array.map((x, index) => f(index, x))` starting at a given index. -/
def mapIdxFrom {α β : Type} (f : Nat → α → β) : Nat → List α → List β
  | _, [] => []
  | i, a :: as => f i a :: mapIdxFrom f (i + 1) as

/-- `buildItemsForColorOnlyTrial`: permute all 8 colors; every item is a
circle. -/
def buildItemsForColorOnlyTrial (trialSeed : Int) : List StimulusItem :=
  let rand := lcgStream trialSeed
  let order := (shuffle (List.range COLORS.length) rand 0).1
  mapIdxFrom (fun index colorIndex =>
    { id := itemIdOf index
      colorName := (COLORS.getD colorIndex defaultColor).name
      colorHex := (COLORS.getD colorIndex defaultColor).hex
      shapeName := "circle"
      shapeSymbol := "●" }) 0 order

/-- `buildItemsForShapeOnlyTrial`: permute all 8 shapes; every item is
black. -/
def buildItemsForShapeOnlyTrial (trialSeed : Int) : List StimulusItem :=
  let rand := lcgStream trialSeed
  let order := (shuffle (List.range SHAPES.length) rand 0).1
  mapIdxFrom (fun index shapeIndex =>
    { id := itemIdOf index
      colorName := "black"
      colorHex := "#111111"
      shapeName := (SHAPES.getD shapeIndex defaultShape).name
      shapeSymbol := (SHAPES.getD shapeIndex defaultShape).symbol }) 0 order

/-- `buildCombinedItemsForTarget`: the target pair first, then the other 7
colors zipped positionally with the other 7 shapes, the whole list then
shuffled before ids are assigned. -/
def buildCombinedItemsForTarget (trialSeed : Int)
    (targetColor targetShape : String) : List StimulusItem :=
  let rand := lcgStream trialSeed
  let rc := shuffle (COLORS.filter (fun c => c.name != targetColor)) rand 0
  let rs := shuffle (SHAPES.filter (fun s => s.name != targetShape)) rand rc.2
  let targetPair : PairDef :=
    { colorName := targetColor
      colorHex :=
        ((COLORS.find? (fun c => c.name == targetColor)).map ColorDef.hex).getD
          "#000000"
      shapeName := targetShape
      shapeSymbol :=
        ((SHAPES.find? (fun s => s.name == targetShape)).map
          ShapeDef.symbol).getD "■" }
  let pairs := targetPair :: (List.range 7).map (fun i =>
    { colorName := (rc.1.getD i defaultColor).name
      colorHex := (rc.1.getD i defaultColor).hex
      shapeName := (rs.1.getD i defaultShape).name
      shapeSymbol := (rs.1.getD i defaultShape).symbol })
  let orderedPairs := (shuffle pairs rand rs.2).1
  mapIdxFrom (fun index pair =>
    { id := itemIdOf index
      colorName := pair.colorName
      colorHex := pair.colorHex
      shapeName := pair.shapeName
      shapeSymbol := pair.shapeSymbol }) 0 orderedPairs

/-- `findItemForTarget`: locate the unique item matching the target
criterion; the `throw` branches become `Except.error`. -/
def findItemForTarget (items : List StimulusItem)
    (targetColor targetShape : String) (condition : Condition) :
    Except String StimulusItem :=
  match condition with
  | Condition.color =>
      match items.find? (fun it => it.colorName == targetColor) with
      | some byColor => Except.ok byColor
      | none => Except.error "No matching color target found"
  | Condition.shape =>
      match items.find? (fun it => it.shapeName == targetShape) with
      | some byShape => Except.ok byShape
      | none => Except.error "No matching shape target found"
  | Condition.combined =>
      match items.find?
          (fun it => it.colorName == targetColor && it.shapeName == targetShape)
          with
      | some byBoth => Except.ok byBoth
      | none => Except.error "No matching combined target found"

/-- The target criterion of a trial, per condition (the predicate
`findItemForTarget` searches with). -/
def matchesTarget (condition : Condition) (targetColor targetShape : String)
    (it : StimulusItem) : Bool :=
  match condition with
  | Condition.color => it.colorName == targetColor
  | Condition.shape => it.shapeName == targetShape
  | Condition.combined =>
      it.colorName == targetColor && it.shapeName == targetShape

/-- The per-block seed `participantNumber*1000 + blockIndex*77 + blockOrder*19`. -/
def blockSeed (participantNumber blockIndex blockOrder : Nat) : Int :=
  (participantNumber * 1000 + blockIndex * 77 + blockOrder * 19 : Nat)

/-- The per-trial seed `participantNumber*100000 + blockIndex*1000 + t + 1`. -/
def trialSeedOf (participantNumber blockIndex t : Nat) : Int :=
  (participantNumber * 100000 + blockIndex * 1000 + t + 1 : Nat)

/-- The four balanced index draws of `generateBlockPlan`, in source order
(practice colors, practice shapes, measured colors, measured shapes), all
consuming the single block-seeded stream sequentially. -/
def blockIndexQuad (participantNumber blockIndex blockOrder
    practiceTrials measuredTrials : Nat) :
    (List Nat × List Nat) × (List Nat × List Nat) :=
  let rand := lcgStream (blockSeed participantNumber blockIndex blockOrder)
  let r1 := buildBalancedIndices (COLORS.length : Int) (practiceTrials : Int) rand 0
  let r2 := buildBalancedIndices (SHAPES.length : Int) (practiceTrials : Int) rand r1.2
  let r3 := buildBalancedIndices (COLORS.length : Int) (measuredTrials : Int) rand r2.2
  let r4 := buildBalancedIndices (SHAPES.length : Int) (measuredTrials : Int) rand r3.2
  ((r1.1, r2.1), (r3.1, r4.1))

/-- The body of `generateBlockPlan`'s trial loop at trial position `t`. -/
def buildTrial (participantNumber blockIndex blockOrder : Nat)
    (condition : Condition) (practiceTrials : Nat)
    (balancedColorIndices balancedShapeIndices : List Nat) (t : Nat) :
    Except String TrialPlan :=
  let trialSeed := trialSeedOf participantNumber blockIndex t
  let targetColor :=
    if condition = Condition.shape then "black"
    else (COLORS.getD (balancedColorIndices.getD t 0) defaultColor).name
  let targetShape :=
    if condition = Condition.color then "circle"
    else (SHAPES.getD (balancedShapeIndices.getD t 0) defaultShape).name
  let items :=
    match condition with
    | Condition.color => buildItemsForColorOnlyTrial trialSeed
    | Condition.shape => buildItemsForShapeOnlyTrial trialSeed
    | Condition.combined =>
        buildCombinedItemsForTarget trialSeed targetColor targetShape
  match findItemForTarget items targetColor targetShape condition with
  | Except.error e => Except.error e
  | Except.ok correctItem =>
      Except.ok
        { id := "b" ++ toString blockIndex ++ "_t" ++ toString (t + 1)
          blockIndex := blockIndex
          blockOrder := blockOrder
          condition := condition
          trialIndexInBlock := t + 1
          isPractice := decide (t < practiceTrials)
          targetType := condition
          targetColor := targetColor
          targetShape := targetShape
          promptText :=
            match condition with
            | Condition.color => "Select the " ++ targetColor ++ " circle"
            | Condition.shape => "Select the " ++ targetShape
            | Condition.combined =>
                "Select the " ++ targetColor ++ " " ++ targetShape
          correctItemId := correctItem.id
          items := items }

/-- Sequencing of the trial loop: first `throw` aborts the block. -/
def mapExcept {α : Type} (f : Nat → Except String α) : List Nat →
    Except String (List α)
  | [] => Except.ok []
  | t :: ts =>
      match f t with
      | Except.error e => Except.error e
      | Except.ok a =>
          match mapExcept f ts with
          | Except.error e => Except.error e
          | Except.ok rest => Except.ok (a :: rest)

/-- `generateBlockPlan`. -/
def generateBlockPlan (participantNumber blockIndex blockOrder : Nat)
    (condition : Condition) (practiceTrials measuredTrials : Nat) :
    Except String BlockPlan :=
  let q := blockIndexQuad participantNumber blockIndex blockOrder
    practiceTrials measuredTrials
  let balancedColorIndices := q.1.1 ++ q.2.1
  let balancedShapeIndices := q.1.2 ++ q.2.2
  match mapExcept
      (buildTrial participantNumber blockIndex blockOrder condition
        practiceTrials balancedColorIndices balancedShapeIndices)
      (List.range (practiceTrials + measuredTrials)) with
  | Except.error e => Except.error e
  | Except.ok trials =>
      Except.ok
        { blockIndex := blockIndex
          blockOrder := blockOrder
          condition := condition
          practiceTrials := (trials.filter (fun tr => tr.isPractice)).length
          measuredTrials := (trials.filter (fun tr => !tr.isPractice)).length
          trials := trials }

/-- `assignedOrder.map((condition, index) => generateBlockPlan(...))`. -/
def mapIdxExceptBlock (f : Nat → Condition → Except String BlockPlan) :
    Nat → List Condition → Except String (List BlockPlan)
  | _, [] => Except.ok []
  | i, c :: cs =>
      match f i c with
      | Except.error e => Except.error e
      | Except.ok b =>
          match mapIdxExceptBlock f (i + 1) cs with
          | Except.error e => Except.error e
          | Except.ok bs => Except.ok (b :: bs)

/-- `generateAllBlocks`. -/
def generateAllBlocks (participantNumber : Nat) :
    Except String (List BlockPlan) :=
  let assignedOrder := getLatinSquareOrder participantNumber
  mapIdxExceptBlock
    (fun index condition =>
      generateBlockPlan participantNumber index (index + 1) condition
        DEFAULT_PRACTICE_TRIALS DEFAULT_MEASURED_TRIALS)
    0 assignedOrder

/-- `orderToLabel`: `color→A, shape→B, combined→C`, joined. -/
def orderToLabel (order : List Condition) : String :=
  String.join (order.map (fun condition =>
    match condition with
    | Condition.color => "A"
    | Condition.shape => "B"
    | Condition.combined => "C"))

/-- Name of the `i`-th color category. -/
def nameOfColor (i : Nat) : String := (COLORS.getD i defaultColor).name

/-- Name of the `i`-th shape category. -/
def nameOfShape (i : Nat) : String := (SHAPES.getD i defaultShape).name

/-- The per-category target count over the measured trials of a plan, for the
color marginal (the counting performed by `assertBalancedTargets`). -/
def measuredColorCount (plan : BlockPlan) (c : String) : Nat :=
  (plan.trials.filter (fun tr => !tr.isPractice)).countP
    (fun tr => tr.targetColor == c)

/-- The per-category target count over the measured trials of a plan, for the
shape marginal. -/
def measuredShapeCount (plan : BlockPlan) (s : String) : Nat :=
  (plan.trials.filter (fun tr => !tr.isPractice)).countP
    (fun tr => tr.targetShape == s)

/-- Placeholder trial used as the `List.getD` default in statements. -/
def dummyTrial : TrialPlan :=
  { id := "", blockIndex := 0, blockOrder := 0, condition := Condition.color,
    trialIndexInBlock := 0, isPractice := false,
    targetType := Condition.color, targetColor := "", targetShape := "",
    promptText := "", correctItemId := "", items := [] }

/-- Placeholder block used as the `List.getD` default in statements. -/
def dummyPlan : BlockPlan :=
  { blockIndex := 0, blockOrder := 0, condition := Condition.color,
    practiceTrials := 0, measuredTrials := 0, trials := [] }

/-- Extract the payload of a trial computation known to succeed. -/
def forceOkTrial (e : Except String TrialPlan) : TrialPlan :=
  match e with
  | Except.ok tr => tr
  | Except.error _ => dummyTrial

/-! ### Permutation properties of the Fisher-Yates shuffle -/

theorem getElem_cons_set_perm {α : Type} :
    ∀ (t : List α) (k : Nat) (hk : k < t.length) (x : α),
      List.Perm (t[k] :: t.set k x) (x :: t)
  | y :: s, 0, _, x => List.Perm.swap x y s
  | y :: s, k + 1, hk, x => by
    have hk2 : k < s.length := by simpa using hk
    simp only [List.getElem_cons_succ, List.set_cons_succ]
    exact (List.Perm.swap y s[k] (s.set k x)).trans
      (((getElem_cons_set_perm s k hk2 x).cons y).trans (List.Perm.swap x y s))

theorem set_set_perm {α : Type} :
    ∀ (l : List α) (i j : Nat) (hi : i < l.length) (hj : j < l.length),
      List.Perm ((l.set i l[j]).set j l[i]) l
  | [], _, _, hi, _ => absurd hi (by simp)
  | _ :: _, 0, 0, _, _ => by simp
  | a :: t, 0, j + 1, _, hj => by
    have hj2 : j < t.length := by simpa using hj
    simp only [List.getElem_cons_zero, List.getElem_cons_succ,
      List.set_cons_zero, List.set_cons_succ]
    exact getElem_cons_set_perm t j hj2 a
  | a :: t, i + 1, 0, hi, _ => by
    have hi2 : i < t.length := by simpa using hi
    simp only [List.getElem_cons_zero, List.getElem_cons_succ,
      List.set_cons_zero, List.set_cons_succ]
    exact getElem_cons_set_perm t i hi2 a
  | a :: t, i + 1, j + 1, hi, hj => by
    have hi2 : i < t.length := by simpa using hi
    have hj2 : j < t.length := by simpa using hj
    simp only [List.getElem_cons_succ, List.set_cons_succ]
    exact (set_set_perm t i j hi2 hj2).cons a

theorem listSwap_perm {α : Type} (l : List α) (i j : Nat) :
    List.Perm (listSwap l i j) l := by
  rcases h1 : l[i]? with _ | a <;> rcases h2 : l[j]? with _ | b <;>
    simp only [listSwap, h1, h2]
  · exact List.Perm.refl l
  · exact List.Perm.refl l
  · exact List.Perm.refl l
  · obtain ⟨hi, hia⟩ := List.getElem?_eq_some_iff.1 h1
    obtain ⟨hj, hjb⟩ := List.getElem?_eq_some_iff.1 h2
    rw [← hia, ← hjb]
    exact set_set_perm l i j hi hj

theorem fyLoop_perm {α : Type} (rand : RandStream) :
    ∀ (i pos : Nat) (l : List α), List.Perm (fyLoop rand pos l i) l := by
  intro i
  induction i with
  | zero => intro pos l; simp [fyLoop]
  | succ i ih =>
    intro pos l
    rw [fyLoop]
    exact (ih (pos + 1) _).trans (listSwap_perm l (i + 1) _)

theorem fyLoop_congr {α : Type} (r1 r2 : RandStream) :
    ∀ (i pos : Nat) (l : List α),
      (∀ k, k < i → r1 (pos + k) = r2 (pos + k)) →
      fyLoop r1 pos l i = fyLoop r2 pos l i := by
  intro i
  induction i with
  | zero => intro pos l _; simp [fyLoop]
  | succ i ih =>
    intro pos l h
    have h0 : r1 pos = r2 pos := by simpa using h 0 (by omega)
    rw [fyLoop, fyLoop, h0]
    exact ih (pos + 1) _ (fun k hk => by
      have hx := h (k + 1) (by omega)
      rwa [show pos + (k + 1) = pos + 1 + k by omega] at hx)

theorem shuffle_fst_perm {α : Type} (l : List α) (rand : RandStream) (pos : Nat) :
    List.Perm (shuffle l rand pos).1 l :=
  fyLoop_perm rand (l.length - 1) pos l

theorem shuffle_fst_length {α : Type} (l : List α) (rand : RandStream) (pos : Nat) :
    (shuffle l rand pos).1.length = l.length :=
  (shuffle_fst_perm l rand pos).length_eq

theorem shuffle_mem {α : Type} {l : List α} {rand : RandStream} {pos : Nat} {x : α}
    (hx : x ∈ (shuffle l rand pos).1) : x ∈ l :=
  (shuffle_fst_perm l rand pos).mem_iff.1 hx

/-! ### Structure of `buildBalancedIndices` -/

theorem count_range_eq (i n : Nat) :
    (List.range n).count i = if i < n then 1 else 0 := by
  by_cases h : i < n
  · rw [if_pos h]
    exact List.count_eq_one_of_mem (List.nodup_range n) (List.mem_range.2 h)
  · rw [if_neg h]
    exact List.count_eq_zero_of_not_mem (fun hm => h (List.mem_range.1 hm))

theorem count_repeatEach (b : Nat) :
    ∀ (l : List Nat) (i : Nat), (repeatEach b l).count i = b * l.count i := by
  intro l
  induction l with
  | nil => intro i; simp [repeatEach]
  | cons x xs ih =>
    intro i
    simp only [repeatEach, List.count_append, List.count_replicate, ih,
      List.count_cons]
    cases hxi : x == i <;> simp [Nat.mul_succ] <;> omega

theorem length_repeatEach (b : Nat) :
    ∀ l : List Nat, (repeatEach b l).length = b * l.length := by
  intro l
  induction l with
  | nil => simp [repeatEach]
  | cons x xs ih => simp [repeatEach, ih, Nat.mul_succ]; omega

theorem mem_repeatEach {b : Nat} :
    ∀ {l : List Nat} {x : Nat}, x ∈ repeatEach b l → x ∈ l := by
  intro l
  induction l with
  | nil => intro x hx; simpa [repeatEach] using hx
  | cons y ys ih =>
    intro x hx
    rcases List.mem_append.1 hx with h1 | h2
    · exact (List.eq_of_mem_replicate h1) ▸ List.mem_cons_self y ys
    · exact List.mem_cons_of_mem y (ih h2)

theorem count_nodup (l : List Nat) (h : l.Nodup) (i : Nat) :
    l.count i = if i ∈ l then 1 else 0 := by
  by_cases hm : i ∈ l
  · rw [if_pos hm]; exact List.count_eq_one_of_mem h hm
  · rw [if_neg hm]; exact List.count_eq_zero_of_not_mem hm

theorem buildBalancedIndices_perm (L C : Int) (rand : RandStream) (pos : Nat)
    (h : ¬(C ≤ 0 ∨ L ≤ 0)) :
    ∃ extra : List Nat, extra.Nodup ∧ (∀ x ∈ extra, x < L.toNat) ∧
      extra.length = C.toNat % L.toNat ∧
      List.Perm (buildBalancedIndices L C rand pos).1
        (repeatEach (C.toNat / L.toNat) (List.range L.toNat) ++ extra) := by
  have hL : (0 : Int) < L := by omega
  have hLN : 0 < L.toNat := by omega
  simp only [buildBalancedIndices, if_neg h]
  by_cases hr : C.toNat % L.toNat > 0
  · rw [if_pos hr]
    refine ⟨(shuffle (List.range L.toNat) rand pos).1.take (C.toNat % L.toNat),
      ?_, ?_, ?_, ?_⟩
    · exact List.Nodup.sublist (List.take_sublist _ _)
        ((shuffle_fst_perm _ rand pos).symm.nodup (List.nodup_range _))
    · intro x hx
      exact List.mem_range.1 (shuffle_mem (List.mem_of_mem_take hx))
    · rw [List.length_take, shuffle_fst_length, List.length_range]
      have := Nat.mod_lt C.toNat hLN
      omega
    · exact shuffle_fst_perm _ rand _
  · rw [if_neg hr]
    refine ⟨[], by simp, by simp, by simp; omega, ?_⟩
    simpa using shuffle_fst_perm
      (repeatEach (C.toNat / L.toNat) (List.range L.toNat)) rand pos

theorem buildBalancedIndices_count (L C : Int) (hL : 0 < L) (hC : 0 < C)
    (rand : RandStream) (pos : Nat) :
    ∃ extra : List Nat, extra.Nodup ∧ (∀ x ∈ extra, x < L.toNat) ∧
      extra.length = C.toNat % L.toNat ∧
      (buildBalancedIndices L C rand pos).1.length = C.toNat ∧
      (∀ x ∈ (buildBalancedIndices L C rand pos).1, x < L.toNat) ∧
      (∀ i, i < L.toNat →
        (buildBalancedIndices L C rand pos).1.count i =
          C.toNat / L.toNat + (if i ∈ extra then 1 else 0)) := by
  have h : ¬(C ≤ 0 ∨ L ≤ 0) := by omega
  obtain ⟨extra, hnd, hmem, hlen, hperm⟩ :=
    buildBalancedIndices_perm L C rand pos h
  refine ⟨extra, hnd, hmem, hlen, ?_, ?_, ?_⟩
  · rw [hperm.length_eq, List.length_append, length_repeatEach,
      List.length_range, hlen, Nat.mul_comm]
    have := Nat.div_add_mod C.toNat L.toNat
    omega
  · intro x hx
    rcases List.mem_append.1 (hperm.mem_iff.1 hx) with h1 | h2
    · exact List.mem_range.1 (mem_repeatEach h1)
    · exact hmem x h2
  · intro i hi
    rw [hperm.count_eq, List.count_append, count_repeatEach, count_range_eq,
      if_pos hi, Nat.mul_one, count_nodup extra hnd]

theorem buildBalancedIndices_mem (L C : Int) (rand : RandStream) (pos : Nat) :
    ∀ x ∈ (buildBalancedIndices L C rand pos).1, x < L.toNat := by
  by_cases h : C ≤ 0 ∨ L ≤ 0
  · rw [buildBalancedIndices, if_pos h]
    intro x hx
    simp at hx
  · obtain ⟨e, -, -, -, -, hm, -⟩ :=
      buildBalancedIndices_count L C (by omega) (by omega) rand pos
    exact hm

theorem buildBalancedIndices_natLength (L : Int) (hL : 0 < L) (p : Nat)
    (rand : RandStream) (pos : Nat) :
    (buildBalancedIndices L (p : Int) rand pos).1.length = p := by
  rcases Nat.eq_zero_or_pos p with hp | hp
  · subst hp
    rw [buildBalancedIndices, if_pos (Or.inl (by simp))]
    rfl
  · obtain ⟨e, -, -, -, hlen, -, -⟩ :=
      buildBalancedIndices_count L (p : Int) hL (by exact_mod_cast hp) rand pos
    simpa using hlen

/-! ### Structure of the trial-item synthesizers -/

theorem length_mapIdxFrom {α β : Type} (f : Nat → α → β) :
    ∀ (s : Nat) (l : List α), (mapIdxFrom f s l).length = l.length := by
  intro s l
  induction l generalizing s with
  | nil => simp [mapIdxFrom]
  | cons a as ih => simp [mapIdxFrom, ih]

theorem countP_mapIdxFrom {α β : Type} (q : β → Bool) (f : Nat → α → β)
    (q2 : α → Bool) (hq : ∀ s a, q (f s a) = q2 a) :
    ∀ (s : Nat) (l : List α), (mapIdxFrom f s l).countP q = l.countP q2 := by
  intro s l
  induction l generalizing s with
  | nil => simp [mapIdxFrom]
  | cons a as ih =>
    simp only [mapIdxFrom, List.countP_cons, ih, hq]

theorem countP_one_find {α : Type} (p : α → Bool) :
    ∀ (l : List α), l.countP p = 1 → ∀ a ∈ l, p a = true → l.find? p = some a := by
  intro l
  induction l with
  | nil => intro _ a ha; simp at ha
  | cons x t ih =>
    intro h a ha hpa
    rcases List.mem_cons.1 ha with rfl | hat
    · rw [List.find?_cons_of_pos _ hpa]
    · cases hx : p x
      · rw [List.find?_cons_of_neg _ (by simp [hx])]
        refine ih ?_ a hat hpa
        rw [List.countP_cons, hx] at h
        simpa using h
      · exfalso
        rw [List.countP_cons, hx] at h
        have ht : t.countP p = 0 := by simpa using h
        exact (List.countP_eq_zero.1 ht a hat) hpa

theorem getD_lt_of_forall {l : List Nat} {n d bound : Nat}
    (h : ∀ x ∈ l, x < bound) (hd : d < bound) : l.getD n d < bound := by
  by_cases hn : n < l.length
  · rw [List.getD_eq_getElem _ _ hn]
    exact h _ (List.getElem_mem hn)
  · rw [List.getD_eq_default _ _ (by omega)]
    exact hd

theorem nameOfColor_inj_beq :
    ∀ a, a < 8 → ∀ b, b < 8 → (nameOfColor a == nameOfColor b) = (a == b) := by
  decide

theorem nameOfShape_inj_beq :
    ∀ a, a < 8 → ∀ b, b < 8 → (nameOfShape a == nameOfShape b) = (a == b) := by
  decide

theorem nameOfColor_ne_empty : ∀ a, a < 8 → nameOfColor a ≠ "" := by decide

theorem nameOfShape_ne_empty : ∀ a, a < 8 → nameOfShape a ≠ "" := by decide

theorem countP_range_color (c0 : Nat) (h : c0 < 8) :
    (List.range 8).countP (fun ci => nameOfColor ci == nameOfColor c0) = 1 := by
  revert c0 h
  decide

theorem countP_range_shape (s0 : Nat) (h : s0 < 8) :
    (List.range 8).countP (fun si => nameOfShape si == nameOfShape s0) = 1 := by
  revert s0 h
  decide

theorem colorItems_spec (seed : Int) (c0 : Nat) (h : c0 < 8) :
    (buildItemsForColorOnlyTrial seed).length = 8 ∧
    (buildItemsForColorOnlyTrial seed).countP
      (fun it => it.colorName == nameOfColor c0) = 1 := by
  have hperm :
      List.Perm (shuffle (List.range COLORS.length) (lcgStream seed) 0).1
        (List.range 8) := shuffle_fst_perm (List.range COLORS.length) _ 0
  constructor
  · simp only [buildItemsForColorOnlyTrial]
    rw [length_mapIdxFrom, hperm.length_eq, List.length_range]
  · simp only [buildItemsForColorOnlyTrial]
    rw [countP_mapIdxFrom _ _
      (fun ci => nameOfColor ci == nameOfColor c0) (fun _ _ => rfl)]
    rw [hperm.countP_eq]
    exact countP_range_color c0 h

theorem shapeItems_spec (seed : Int) (s0 : Nat) (h : s0 < 8) :
    (buildItemsForShapeOnlyTrial seed).length = 8 ∧
    (buildItemsForShapeOnlyTrial seed).countP
      (fun it => it.shapeName == nameOfShape s0) = 1 := by
  have hperm :
      List.Perm (shuffle (List.range SHAPES.length) (lcgStream seed) 0).1
        (List.range 8) := shuffle_fst_perm (List.range SHAPES.length) _ 0
  constructor
  · simp only [buildItemsForShapeOnlyTrial]
    rw [length_mapIdxFrom, hperm.length_eq, List.length_range]
  · simp only [buildItemsForShapeOnlyTrial]
    rw [countP_mapIdxFrom _ _
      (fun si => nameOfShape si == nameOfShape s0) (fun _ _ => rfl)]
    rw [hperm.countP_eq]
    exact countP_range_shape s0 h

theorem getD_colorName_ne {l : List ColorDef} {nc : String}
    (h : ∀ x ∈ l, x.name ≠ nc) (h0 : nc ≠ "") (i : Nat) :
    (l.getD i defaultColor).name ≠ nc := by
  by_cases hi : i < l.length
  · rw [List.getD_eq_getElem _ _ hi]
    exact h _ (List.getElem_mem hi)
  · rw [List.getD_eq_default _ _ (by omega)]
    exact Ne.symm h0

theorem combinedItems_spec (seed : Int) (c0 s0 : Nat) (hc : c0 < 8)
    (hs : s0 < 8) :
    (buildCombinedItemsForTarget seed (nameOfColor c0) (nameOfShape s0)).length
      = 8 ∧
    (buildCombinedItemsForTarget seed (nameOfColor c0)
        (nameOfShape s0)).countP
      (fun it => it.colorName == nameOfColor c0 &&
        it.shapeName == nameOfShape s0) = 1 := by
  have hrcmem : ∀ x ∈ (shuffle
      (COLORS.filter (fun c => c.name != nameOfColor c0))
      (lcgStream seed) 0).1, x.name ≠ nameOfColor c0 := by
    intro x hx
    have hx2 := (List.mem_filter.1 (shuffle_mem hx)).2
    simpa using hx2
  constructor
  · simp only [buildCombinedItemsForTarget]
    rw [length_mapIdxFrom, (shuffle_fst_perm _ _ _).length_eq]
    simp
  · simp only [buildCombinedItemsForTarget]
    rw [countP_mapIdxFrom _ _
      (fun pr : PairDef => pr.colorName == nameOfColor c0 &&
        pr.shapeName == nameOfShape s0) (fun _ _ => rfl)]
    rw [(shuffle_fst_perm _ _ _).countP_eq, List.countP_cons]
    have hrest : ((List.range 7).map (fun i =>
        ({ colorName := ((shuffle
              (COLORS.filter (fun c => c.name != nameOfColor c0))
              (lcgStream seed) 0).1.getD i defaultColor).name
           colorHex := ((shuffle
              (COLORS.filter (fun c => c.name != nameOfColor c0))
              (lcgStream seed) 0).1.getD i defaultColor).hex
           shapeName := ((shuffle
              (SHAPES.filter (fun s => s.name != nameOfShape s0))
              (lcgStream seed)
              (shuffle (COLORS.filter (fun c => c.name != nameOfColor c0))
                (lcgStream seed) 0).2).1.getD i defaultShape).name
           shapeSymbol := ((shuffle
              (SHAPES.filter (fun s => s.name != nameOfShape s0))
              (lcgStream seed)
              (shuffle (COLORS.filter (fun c => c.name != nameOfColor c0))
                (lcgStream seed) 0).2).1.getD i defaultShape).symbol }
          : PairDef))).countP
        (fun pr : PairDef => pr.colorName == nameOfColor c0 &&
          pr.shapeName == nameOfShape s0) = 0 := by
      refine List.countP_eq_zero.2 ?_
      intro pr hpr
      obtain ⟨i, hi, rfl⟩ := List.mem_map.1 hpr
      intro hq
      rw [Bool.and_eq_true] at hq
      exact (getD_colorName_ne hrcmem (nameOfColor_ne_empty c0 hc) i)
        (by simpa using hq.1)
    rw [hrest]
    simp

/-! ### The trial loop and the block planner -/

theorem findItemForTarget_color (items : List StimulusItem) (tc ts : String) :
    findItemForTarget items tc ts Condition.color =
      match items.find? (fun it => it.colorName == tc) with
      | some byColor => Except.ok byColor
      | none => Except.error "No matching color target found" := rfl

theorem findItemForTarget_shape (items : List StimulusItem) (tc ts : String) :
    findItemForTarget items tc ts Condition.shape =
      match items.find? (fun it => it.shapeName == ts) with
      | some byShape => Except.ok byShape
      | none => Except.error "No matching shape target found" := rfl

theorem findItemForTarget_combined (items : List StimulusItem) (tc ts : String) :
    findItemForTarget items tc ts Condition.combined =
      match items.find? (fun it => it.colorName == tc && it.shapeName == ts) with
      | some byBoth => Except.ok byBoth
      | none => Except.error "No matching combined target found" := rfl

attribute [irreducible] findItemForTarget

attribute [irreducible] buildItemsForColorOnlyTrial

attribute [irreducible] buildItemsForShapeOnlyTrial

attribute [irreducible] buildCombinedItemsForTarget

theorem nameOfColor_def (i : Nat) :
    (COLORS.getD i defaultColor).name = nameOfColor i := rfl

theorem nameOfShape_def (i : Nat) :
    (SHAPES.getD i defaultShape).name = nameOfShape i := rfl

theorem buildTrial_spec (n bi bo : Nat) (cond : Condition) (p : Nat)
    (bci bsi : List Nat) (t : Nat)
    (hc : bci.getD t 0 < 8) (hs : bsi.getD t 0 < 8) :
    ∃ tr : TrialPlan,
      buildTrial n bi bo cond p bci bsi t = Except.ok tr ∧
      tr.condition = cond ∧
      tr.isPractice = decide (t < p) ∧
      tr.targetColor = (if cond = Condition.shape then "black"
        else nameOfColor (bci.getD t 0)) ∧
      tr.targetShape = (if cond = Condition.color then "circle"
        else nameOfShape (bsi.getD t 0)) ∧
      tr.items.length = 8 ∧
      tr.items.countP (matchesTarget cond tr.targetColor tr.targetShape) = 1 ∧
      (∀ it ∈ tr.items,
        matchesTarget cond tr.targetColor tr.targetShape it = true →
        it.id = tr.correctItemId) ∧
      (∃ ci, findItemForTarget tr.items tr.targetColor tr.targetShape cond =
        Except.ok ci ∧ ci.id = tr.correctItemId) := by
  cases cond with
  | color =>
    obtain ⟨hlen, hcount⟩ := colorItems_spec (trialSeedOf n bi t) (bci.getD t 0) hc
    obtain ⟨a, ha, hpa⟩ := List.countP_pos_iff.1
      (show 0 < (buildItemsForColorOnlyTrial (trialSeedOf n bi t)).countP
        (fun it => it.colorName == nameOfColor (bci.getD t 0)) by omega)
    have hfind := countP_one_find _ _ hcount a ha hpa
    have hfi : findItemForTarget (buildItemsForColorOnlyTrial (trialSeedOf n bi t))
        (nameOfColor (bci.getD t 0)) "circle" Condition.color = Except.ok a := by
      rw [findItemForTarget_color, hfind]
    refine ⟨{ id := "b" ++ toString bi ++ "_t" ++ toString (t + 1)
              blockIndex := bi
              blockOrder := bo
              condition := Condition.color
              trialIndexInBlock := t + 1
              isPractice := decide (t < p)
              targetType := Condition.color
              targetColor := nameOfColor (bci.getD t 0)
              targetShape := "circle"
              promptText := "Select the " ++ nameOfColor (bci.getD t 0) ++ " circle"
              correctItemId := a.id
              items := buildItemsForColorOnlyTrial (trialSeedOf n bi t) },
      ?_, rfl, rfl, by simp, rfl, hlen, hcount, ?_, a, hfi, rfl⟩
    · unfold buildTrial
      simp only [reduceCtorEq, reduceIte, ite_true, ite_false, nameOfColor_def]
      rw [hfi]
    · intro it hit hmt
      have h2 := countP_one_find _ _ hcount it hit hmt
      rw [hfind] at h2
      cases h2
      rfl
  | shape =>
    obtain ⟨hlen, hcount⟩ := shapeItems_spec (trialSeedOf n bi t) (bsi.getD t 0) hs
    obtain ⟨a, ha, hpa⟩ := List.countP_pos_iff.1
      (show 0 < (buildItemsForShapeOnlyTrial (trialSeedOf n bi t)).countP
        (fun it => it.shapeName == nameOfShape (bsi.getD t 0)) by omega)
    have hfind := countP_one_find _ _ hcount a ha hpa
    have hfi : findItemForTarget (buildItemsForShapeOnlyTrial (trialSeedOf n bi t))
        "black" (nameOfShape (bsi.getD t 0)) Condition.shape = Except.ok a := by
      rw [findItemForTarget_shape, hfind]
    refine ⟨{ id := "b" ++ toString bi ++ "_t" ++ toString (t + 1)
              blockIndex := bi
              blockOrder := bo
              condition := Condition.shape
              trialIndexInBlock := t + 1
              isPractice := decide (t < p)
              targetType := Condition.shape
              targetColor := "black"
              targetShape := nameOfShape (bsi.getD t 0)
              promptText := "Select the " ++ nameOfShape (bsi.getD t 0)
              correctItemId := a.id
              items := buildItemsForShapeOnlyTrial (trialSeedOf n bi t) },
      ?_, rfl, rfl, rfl, by simp, hlen, hcount, ?_, a, hfi, rfl⟩
    · unfold buildTrial
      simp only [reduceCtorEq, reduceIte, ite_true, ite_false, nameOfShape_def]
      rw [hfi]
    · intro it hit hmt
      have h2 := countP_one_find _ _ hcount it hit hmt
      rw [hfind] at h2
      cases h2
      rfl
  | combined =>
    obtain ⟨hlen, hcount⟩ :=
      combinedItems_spec (trialSeedOf n bi t) (bci.getD t 0) (bsi.getD t 0) hc hs
    obtain ⟨a, ha, hpa⟩ := List.countP_pos_iff.1
      (show 0 < (buildCombinedItemsForTarget (trialSeedOf n bi t)
          (nameOfColor (bci.getD t 0)) (nameOfShape (bsi.getD t 0))).countP
        (fun it => it.colorName == nameOfColor (bci.getD t 0) &&
          it.shapeName == nameOfShape (bsi.getD t 0)) by omega)
    have hfind := countP_one_find _ _ hcount a ha hpa
    have hfi : findItemForTarget
        (buildCombinedItemsForTarget (trialSeedOf n bi t)
          (nameOfColor (bci.getD t 0)) (nameOfShape (bsi.getD t 0)))
        (nameOfColor (bci.getD t 0)) (nameOfShape (bsi.getD t 0))
        Condition.combined = Except.ok a := by
      rw [findItemForTarget_combined, hfind]
    refine ⟨{ id := "b" ++ toString bi ++ "_t" ++ toString (t + 1)
              blockIndex := bi
              blockOrder := bo
              condition := Condition.combined
              trialIndexInBlock := t + 1
              isPractice := decide (t < p)
              targetType := Condition.combined
              targetColor := nameOfColor (bci.getD t 0)
              targetShape := nameOfShape (bsi.getD t 0)
              promptText := "Select the " ++ nameOfColor (bci.getD t 0) ++ " " ++
                nameOfShape (bsi.getD t 0)
              correctItemId := a.id
              items := buildCombinedItemsForTarget (trialSeedOf n bi t)
                (nameOfColor (bci.getD t 0)) (nameOfShape (bsi.getD t 0)) },
      ?_, rfl, rfl, by simp, by simp, hlen, hcount, ?_, a, hfi, rfl⟩
    · unfold buildTrial
      simp only [reduceCtorEq, reduceIte, ite_true, ite_false, nameOfColor_def,
        nameOfShape_def]
      rw [hfi]
    · intro it hit hmt
      have h2 := countP_one_find _ _ hcount it hit hmt
      rw [hfind] at h2
      cases h2
      rfl

theorem mapExcept_ok (f : Nat → Except String TrialPlan) :
    ∀ l : List Nat, (∀ x ∈ l, ∃ tr, f x = Except.ok tr) →
      mapExcept f l = Except.ok (l.map (fun x => forceOkTrial (f x))) := by
  intro l
  induction l with
  | nil => intro _; simp [mapExcept]
  | cons t ts ih =>
    intro h
    obtain ⟨tr, htr⟩ := h t (List.mem_cons_self t ts)
    simp only [mapExcept, htr,
      ih (fun x hx => h x (List.mem_cons_of_mem t hx)),
      List.map_cons, forceOkTrial]

theorem quad_bci_mem (n bi bo p m : Nat) :
    ∀ x ∈ (blockIndexQuad n bi bo p m).1.1 ++ (blockIndexQuad n bi bo p m).2.1,
      x < 8 := by
  intro x hx
  rcases List.mem_append.1 hx with h1 | h2
  · exact buildBalancedIndices_mem (COLORS.length : Int) (p : Int) _ _ x h1
  · exact buildBalancedIndices_mem (COLORS.length : Int) (m : Int) _ _ x h2

theorem quad_bsi_mem (n bi bo p m : Nat) :
    ∀ x ∈ (blockIndexQuad n bi bo p m).1.2 ++ (blockIndexQuad n bi bo p m).2.2,
      x < 8 := by
  intro x hx
  rcases List.mem_append.1 hx with h1 | h2
  · exact buildBalancedIndices_mem (SHAPES.length : Int) (p : Int) _ _ x h1
  · exact buildBalancedIndices_mem (SHAPES.length : Int) (m : Int) _ _ x h2

theorem quad_pci_length (n bi bo p m : Nat) :
    (blockIndexQuad n bi bo p m).1.1.length = p :=
  buildBalancedIndices_natLength (COLORS.length : Int) (by decide) p _ _

theorem quad_mci_length (n bi bo p m : Nat) :
    (blockIndexQuad n bi bo p m).2.1.length = m :=
  buildBalancedIndices_natLength (COLORS.length : Int) (by decide) m _ _

theorem quad_psi_length (n bi bo p m : Nat) :
    (blockIndexQuad n bi bo p m).1.2.length = p :=
  buildBalancedIndices_natLength (SHAPES.length : Int) (by decide) p _ _

theorem quad_msi_length (n bi bo p m : Nat) :
    (blockIndexQuad n bi bo p m).2.2.length = m :=
  buildBalancedIndices_natLength (SHAPES.length : Int) (by decide) m _ _

theorem generateBlockPlan_spec (n bi bo : Nat) (cond : Condition) (p m : Nat) :
    ∃ plan, generateBlockPlan n bi bo cond p m = Except.ok plan ∧
      plan.blockIndex = bi ∧ plan.blockOrder = bo ∧ plan.condition = cond ∧
      plan.trials = (List.range (p + m)).map
        (fun t => forceOkTrial
          (buildTrial n bi bo cond p
            ((blockIndexQuad n bi bo p m).1.1 ++
              (blockIndexQuad n bi bo p m).2.1)
            ((blockIndexQuad n bi bo p m).1.2 ++
              (blockIndexQuad n bi bo p m).2.2) t)) ∧
      plan.practiceTrials =
        (plan.trials.filter (fun tr => tr.isPractice)).length ∧
      plan.measuredTrials =
        (plan.trials.filter (fun tr => !tr.isPractice)).length := by
  have hall : ∀ t ∈ List.range (p + m), ∃ tr,
      buildTrial n bi bo cond p
        ((blockIndexQuad n bi bo p m).1.1 ++ (blockIndexQuad n bi bo p m).2.1)
        ((blockIndexQuad n bi bo p m).1.2 ++ (blockIndexQuad n bi bo p m).2.2)
        t = Except.ok tr := by
    intro t _
    obtain ⟨tr, htr, -⟩ := buildTrial_spec n bi bo cond p _ _ t
      (getD_lt_of_forall (quad_bci_mem n bi bo p m) (by omega))
      (getD_lt_of_forall (quad_bsi_mem n bi bo p m) (by omega))
    exact ⟨tr, htr⟩
  simp only [generateBlockPlan]
  rw [mapExcept_ok _ _ hall]
  exact ⟨_, rfl, rfl, rfl, rfl, rfl, rfl, rfl⟩

/-! ### Measured-trial target counts -/

theorem map_getD_range {α : Type} (l : List α) (d : α) :
    (List.range l.length).map (fun k => l.getD k d) = l := by
  apply List.ext_getElem
  · simp
  · intro i h1 h2
    simp [List.getD_eq_getElem _ _ h2, List.getElem?_eq_getElem h2]

theorem count_eq_countP_getD (l : List Nat) (i : Nat) :
    l.count i = (List.range l.length).countP (fun k => l.getD k 0 == i) := by
  calc l.count i = List.countP (fun x => x == i) l := List.count_eq_countP _ _
    _ = List.countP (fun x => x == i)
        ((List.range l.length).map (fun k => l.getD k 0)) := by
          rw [map_getD_range]
    _ = (List.range l.length).countP (fun k => l.getD k 0 == i) :=
          List.countP_map _ _ _

theorem countP_map_congr {α β : Type} (f : α → β) (p : β → Bool) (q : α → Bool) :
    ∀ l : List α, (∀ x ∈ l, p (f x) = q x) →
      (l.map f).countP p = l.countP q := by
  intro l
  induction l with
  | nil => intro _; simp
  | cons a as ih =>
    intro h
    simp only [List.map_cons, List.countP_cons,
      ih (fun x hx => h x (List.mem_cons_of_mem a hx)),
      h a (List.mem_cons_self a as)]

theorem quad_mci_mem (n bi bo p m : Nat) :
    ∀ x ∈ (blockIndexQuad n bi bo p m).2.1, x < 8 :=
  fun x hx => buildBalancedIndices_mem (COLORS.length : Int) (m : Int) _ _ x hx

theorem quad_msi_mem (n bi bo p m : Nat) :
    ∀ x ∈ (blockIndexQuad n bi bo p m).2.2, x < 8 :=
  fun x hx => buildBalancedIndices_mem (SHAPES.length : Int) (m : Int) _ _ x hx

theorem measured_color_count_eq (n bi bo : Nat) (cond : Condition) (p m : Nat)
    (plan : BlockPlan)
    (hplan : generateBlockPlan n bi bo cond p m = Except.ok plan)
    (hcond : cond ≠ Condition.shape) (i : Nat) (hi : i < 8) :
    measuredColorCount plan (nameOfColor i) =
      (blockIndexQuad n bi bo p m).2.1.count i := by
  obtain ⟨plan2, hok, -, -, -, htr, -, -⟩ := generateBlockPlan_spec n bi bo cond p m
  rw [hplan] at hok
  injection hok with hpe
  subst hpe
  have hcB : ∀ t : Nat,
      ((blockIndexQuad n bi bo p m).1.1 ++
        (blockIndexQuad n bi bo p m).2.1).getD t 0 < 8 :=
    fun t => getD_lt_of_forall (quad_bci_mem n bi bo p m) (by omega)
  have hsB : ∀ t : Nat,
      ((blockIndexQuad n bi bo p m).1.2 ++
        (blockIndexQuad n bi bo p m).2.2).getD t 0 < 8 :=
    fun t => getD_lt_of_forall (quad_bsi_mem n bi bo p m) (by omega)
  unfold measuredColorCount
  rw [htr, List.countP_filter]
  rw [countP_map_congr _ _
    (fun t => (nameOfColor (((blockIndexQuad n bi bo p m).1.1 ++
        (blockIndexQuad n bi bo p m).2.1).getD t 0) == nameOfColor i) &&
      !decide (t < p))
    (List.range (p + m))
    (fun t _ => by
      obtain ⟨tr, htrq, -, hisP, htc, -, -, -, -, -⟩ :=
        buildTrial_spec n bi bo cond p _ _ t (hcB t) (hsB t)
      rw [htrq]
      simp only [forceOkTrial]
      rw [hisP, htc, if_neg hcond])]
  rw [List.range_add, List.countP_append]
  have h1 : (List.range p).countP
      (fun t => (nameOfColor (((blockIndexQuad n bi bo p m).1.1 ++
          (blockIndexQuad n bi bo p m).2.1).getD t 0) == nameOfColor i) &&
        !decide (t < p)) = 0 := by
    refine List.countP_eq_zero.2 ?_
    intro t ht
    have := List.mem_range.1 ht
    simp [this]
  rw [h1]
  rw [countP_map_congr _ _
    (fun k => (blockIndexQuad n bi bo p m).2.1.getD k 0 == i)
    (List.range m)
    (fun k _ => by
      have hnotlt : ¬(p + k < p) := by omega
      have hgd : ((blockIndexQuad n bi bo p m).1.1 ++
          (blockIndexQuad n bi bo p m).2.1).getD (p + k) 0 =
          (blockIndexQuad n bi bo p m).2.1.getD k 0 := by
        rw [List.getD_append_right _ _ _ _ (by rw [quad_pci_length]; omega),
          quad_pci_length]
        simp
      have hklt : (blockIndexQuad n bi bo p m).2.1.getD k 0 < 8 :=
        getD_lt_of_forall (quad_mci_mem n bi bo p m) (by omega)
      rw [hgd, nameOfColor_inj_beq _ hklt _ hi]
      simp [hnotlt])]
  rw [count_eq_countP_getD, quad_mci_length n bi bo p m]
  omega

theorem measured_shape_count_eq (n bi bo : Nat) (cond : Condition) (p m : Nat)
    (plan : BlockPlan)
    (hplan : generateBlockPlan n bi bo cond p m = Except.ok plan)
    (hcond : cond ≠ Condition.color) (i : Nat) (hi : i < 8) :
    measuredShapeCount plan (nameOfShape i) =
      (blockIndexQuad n bi bo p m).2.2.count i := by
  obtain ⟨plan2, hok, -, -, -, htr, -, -⟩ := generateBlockPlan_spec n bi bo cond p m
  rw [hplan] at hok
  injection hok with hpe
  subst hpe
  have hcB : ∀ t : Nat,
      ((blockIndexQuad n bi bo p m).1.1 ++
        (blockIndexQuad n bi bo p m).2.1).getD t 0 < 8 :=
    fun t => getD_lt_of_forall (quad_bci_mem n bi bo p m) (by omega)
  have hsB : ∀ t : Nat,
      ((blockIndexQuad n bi bo p m).1.2 ++
        (blockIndexQuad n bi bo p m).2.2).getD t 0 < 8 :=
    fun t => getD_lt_of_forall (quad_bsi_mem n bi bo p m) (by omega)
  unfold measuredShapeCount
  rw [htr, List.countP_filter]
  rw [countP_map_congr _ _
    (fun t => (nameOfShape (((blockIndexQuad n bi bo p m).1.2 ++
        (blockIndexQuad n bi bo p m).2.2).getD t 0) == nameOfShape i) &&
      !decide (t < p))
    (List.range (p + m))
    (fun t _ => by
      obtain ⟨tr, htrq, -, hisP, -, hts, -, -, -, -⟩ :=
        buildTrial_spec n bi bo cond p _ _ t (hcB t) (hsB t)
      rw [htrq]
      simp only [forceOkTrial]
      rw [hisP, hts, if_neg hcond])]
  rw [List.range_add, List.countP_append]
  have h1 : (List.range p).countP
      (fun t => (nameOfShape (((blockIndexQuad n bi bo p m).1.2 ++
          (blockIndexQuad n bi bo p m).2.2).getD t 0) == nameOfShape i) &&
        !decide (t < p)) = 0 := by
    refine List.countP_eq_zero.2 ?_
    intro t ht
    have := List.mem_range.1 ht
    simp [this]
  rw [h1]
  rw [countP_map_congr _ _
    (fun k => (blockIndexQuad n bi bo p m).2.2.getD k 0 == i)
    (List.range m)
    (fun k _ => by
      have hnotlt : ¬(p + k < p) := by omega
      have hgd : ((blockIndexQuad n bi bo p m).1.2 ++
          (blockIndexQuad n bi bo p m).2.2).getD (p + k) 0 =
          (blockIndexQuad n bi bo p m).2.2.getD k 0 := by
        rw [List.getD_append_right _ _ _ _ (by rw [quad_psi_length]; omega),
          quad_psi_length]
        simp
      have hklt : (blockIndexQuad n bi bo p m).2.2.getD k 0 < 8 :=
        getD_lt_of_forall (quad_msi_mem n bi bo p m) (by omega)
      rw [hgd, nameOfShape_inj_beq _ hklt _ hi]
      simp [hnotlt])]
  rw [count_eq_countP_getD, quad_msi_length n bi bo p m]
  omega

theorem quad_mci_eq (n bi bo p m : Nat) :
    (blockIndexQuad n bi bo p m).2.1 =
      (buildBalancedIndices (COLORS.length : Int) (m : Int)
        (lcgStream (blockSeed n bi bo))
        (buildBalancedIndices (SHAPES.length : Int) (p : Int)
          (lcgStream (blockSeed n bi bo))
          (buildBalancedIndices (COLORS.length : Int) (p : Int)
            (lcgStream (blockSeed n bi bo)) 0).2).2).1 := rfl

theorem quad_msi_eq (n bi bo p m : Nat) :
    (blockIndexQuad n bi bo p m).2.2 =
      (buildBalancedIndices (SHAPES.length : Int) (m : Int)
        (lcgStream (blockSeed n bi bo))
        (buildBalancedIndices (COLORS.length : Int) (m : Int)
          (lcgStream (blockSeed n bi bo))
          (buildBalancedIndices (SHAPES.length : Int) (p : Int)
            (lcgStream (blockSeed n bi bo))
            (buildBalancedIndices (COLORS.length : Int) (p : Int)
              (lcgStream (blockSeed n bi bo)) 0).2).2).2).1 := rfl

theorem bbi_count8 (L : Int) (hL8 : L.toNat = 8) (C : Nat) (hC : 0 < C)
    (rand : RandStream) (pos : Nat) :
    ∃ extra : List Nat, extra.Nodup ∧ (∀ x ∈ extra, x < 8) ∧
      extra.length = C % 8 ∧
      ∀ i, i < 8 →
        (buildBalancedIndices L (C : Int) rand pos).1.count i =
          C / 8 + (if i ∈ extra then 1 else 0) := by
  have hLpos : 0 < L := by omega
  obtain ⟨extra, hnd, hmem, hlen, -, -, hcnt⟩ :=
    buildBalancedIndices_count L (C : Int) hLpos (by exact_mod_cast hC)
      rand pos
  refine ⟨extra, hnd, ?_, ?_, ?_⟩
  · intro x hx
    have := hmem x hx
    omega
  · rw [hlen, hL8]
    simp
  · intro i hi
    have := hcnt i (by omega)
    simpa [hL8] using this

theorem filter_count_two_six (cnt : Nat → Nat) (extra : List Nat)
    (hnd : extra.Nodup) (hmem : ∀ x ∈ extra, x < 8) (hlen : extra.length = 2)
    (hcnt : ∀ i, i < 8 → cnt i = 1 + (if i ∈ extra then 1 else 0)) :
    ((List.range 8).filter (fun i => cnt i = 2)).length = 2 ∧
    ((List.range 8).filter (fun i => cnt i = 1)).length = 6 := by
  have h2 : (List.range 8).filter (fun i => cnt i = 2) =
      (List.range 8).filter (fun i => decide (i ∈ extra)) := by
    apply List.filter_congr
    intro i hi
    have := hcnt i (List.mem_range.1 hi)
    by_cases hm : i ∈ extra <;> simp [this, hm]
  have h1 : (List.range 8).filter (fun i => cnt i = 1) =
      (List.range 8).filter (fun i => !decide (i ∈ extra)) := by
    apply List.filter_congr
    intro i hi
    have := hcnt i (List.mem_range.1 hi)
    by_cases hm : i ∈ extra <;> simp [this, hm]
  have hperm : List.Perm
      ((List.range 8).filter (fun i => decide (i ∈ extra))) extra := by
    apply (List.perm_ext_iff_of_nodup ((List.nodup_range 8).filter _) hnd).2
    intro a
    simp only [List.mem_filter, List.mem_range, decide_eq_true_eq]
    exact ⟨fun h => h.2, fun h => ⟨hmem a h, h⟩⟩
  have hl2 : ((List.range 8).filter (fun i => decide (i ∈ extra))).length = 2 := by
    rw [hperm.length_eq, hlen]
  have hsum := (List.filter_append_perm
    (fun i => decide (i ∈ extra)) (List.range 8)).length_eq
  rw [List.length_append, List.length_range] at hsum
  constructor
  · rw [h2]
    exact hl2
  · rw [h1]
    omega

/-! ### Claim theorems -/

/-- C3. For every categoryCount > 0, sampleCount > 0 and random stream,
`buildBalancedIndices` returns a sequence of length sampleCount whose
elements lie in `[0, categoryCount)`; each category appears either
`floor(sampleCount/categoryCount)` or that plus one times, so per-category
counts differ by at most 1, and all counts are equal when categoryCount
divides sampleCount. -/
theorem C3_buildBalancedIndices_balanced (L C : Int) (hL : 0 < L) (hC : 0 < C)
    (rand : RandStream) (pos : Nat)
    (hr : ∀ k, 0 ≤ rand k ∧ rand k < 1) :
    (buildBalancedIndices L C rand pos).1.length = C.toNat ∧
    (∀ x ∈ (buildBalancedIndices L C rand pos).1, (x : Int) < L) ∧
    (∀ i, i < L.toNat →
      (buildBalancedIndices L C rand pos).1.count i = C.toNat / L.toNat ∨
      (buildBalancedIndices L C rand pos).1.count i = C.toNat / L.toNat + 1) ∧
    (∀ i, i < L.toNat → ∀ j, j < L.toNat →
      (buildBalancedIndices L C rand pos).1.count i ≤
        (buildBalancedIndices L C rand pos).1.count j + 1) ∧
    (L ∣ C → ∀ i, i < L.toNat →
      (buildBalancedIndices L C rand pos).1.count i = C.toNat / L.toNat) := by
  obtain ⟨extra, hnd, hmemx, hlenx, hlen, hmem, hcnt⟩ :=
    buildBalancedIndices_count L C hL hC rand pos
  refine ⟨hlen, ?_, ?_, ?_, ?_⟩
  · intro x hx
    have := hmem x hx
    omega
  · intro i hi
    rw [hcnt i hi]
    by_cases hm : i ∈ extra <;> simp [hm]
  · intro i hi j hj
    rw [hcnt i hi, hcnt j hj]
    split_ifs <;> omega
  · intro hdvd i hi
    have hLe : ((L.toNat : Int)) = L := Int.toNat_of_nonneg (by omega)
    have hCe : ((C.toNat : Int)) = C := Int.toNat_of_nonneg (by omega)
    have hdvd2 : L.toNat ∣ C.toNat := by
      rw [← Int.natCast_dvd_natCast, hLe, hCe]
      exact hdvd
    obtain ⟨q, hq⟩ := hdvd2
    have hmod : C.toNat % L.toNat = 0 := by
      rw [hq]
      exact Nat.mul_mod_right _ _
    have hext : extra = [] := by
      have : extra.length = 0 := by omega
      exact List.eq_nil_of_length_eq_zero this
    rw [hcnt i hi, hext]
    simp

/-- C3 witness at categoryCount 3, sampleCount 5, the all-zero stream. -/
theorem C3_witness :
    ((buildBalancedIndices 3 5 (fun _ => 0) 0).1.length = (5 : Int).toNat ∧
    (∀ x ∈ (buildBalancedIndices 3 5 (fun _ => 0) 0).1, (x : Int) < 3) ∧
    (∀ i, i < (3 : Int).toNat →
      (buildBalancedIndices 3 5 (fun _ => 0) 0).1.count i =
        (5 : Int).toNat / (3 : Int).toNat ∨
      (buildBalancedIndices 3 5 (fun _ => 0) 0).1.count i =
        (5 : Int).toNat / (3 : Int).toNat + 1) ∧
    (∀ i, i < (3 : Int).toNat → ∀ j, j < (3 : Int).toNat →
      (buildBalancedIndices 3 5 (fun _ => 0) 0).1.count i ≤
        (buildBalancedIndices 3 5 (fun _ => 0) 0).1.count j + 1) ∧
    ((3 : Int) ∣ 5 → ∀ i, i < (3 : Int).toNat →
      (buildBalancedIndices 3 5 (fun _ => 0) 0).1.count i =
        (5 : Int).toNat / (3 : Int).toNat)) :=
  C3_buildBalancedIndices_balanced 3 5 (by norm_num) (by norm_num)
    (fun _ => 0) 0 (fun _ => ⟨by norm_num, by norm_num⟩)

/-- C4. `generateBlockPlan` is deterministic: two calls with identical
arguments return structurally identical block plans.  In this embedding the
generator is a pure function of its arguments (it consults no ambient
state), so equal inputs give equal outputs definitionally. -/
theorem C4_generateBlockPlan_deterministic
    (n1 bi1 bo1 : Nat) (c1 : Condition) (p1 m1 : Nat)
    (n2 bi2 bo2 : Nat) (c2 : Condition) (p2 m2 : Nat)
    (hn : n1 = n2) (hbi : bi1 = bi2) (hbo : bo1 = bo2) (hc : c1 = c2)
    (hp : p1 = p2) (hm : m1 = m2) :
    generateBlockPlan n1 bi1 bo1 c1 p1 m1 =
      generateBlockPlan n2 bi2 bo2 c2 p2 m2 := by
  subst hn
  subst hbi
  subst hbo
  subst hc
  subst hp
  subst hm
  rfl

/-- C4 witness: two identical calls at a concrete argument tuple. -/
theorem C4_witness :
    generateBlockPlan 123456 0 1 Condition.combined 3 10 =
      generateBlockPlan 123456 0 1 Condition.combined 3 10 :=
  C4_generateBlockPlan_deterministic 123456 0 1 Condition.combined 3 10
    123456 0 1 Condition.combined 3 10 rfl rfl rfl rfl rfl rfl

/-- C7 counterexample: at seed `-2147483646` the JS truncated remainder is
`-2147483646 ≤ 0`, so adding `2147483646` normalizes the state to `0`, not
into `[1, 2147483646]`, and the first produced value is
`-1/2147483646 < 0`, outside `[0, 1)`. -/
theorem C7_counterexample :
    lcgInit (-2147483646) = 0 ∧ ¬(1 ≤ lcgInit (-2147483646)) ∧
    lcgValue (-2147483646) 0 < 0 := by
  refine ⟨by decide, by decide, ?_⟩
  show ((lcgState (-2147483646) 0 : ℚ) - 1) / 2147483646 < 0
  norm_num [show lcgState (-2147483646) 0 = 0 from rfl]

/-- C7 (amended). For every integer seed whose truncated remainder modulo
2147483647 is not `-2147483646` (in particular every non-negative seed),
`seededRandom` normalizes its state into `[1, 2147483646]` before the first
draw, and every value the generator produces lies in `[0, 1)`. -/
theorem C7_seededRandom_range (seed : Int)
    (h : seed.tmod 2147483647 ≠ -2147483646) :
    (1 ≤ lcgInit seed ∧ lcgInit seed ≤ 2147483646) ∧
    ∀ k, 0 ≤ lcgValue seed k ∧ lcgValue seed k < 1 := by
  have hb : -2147483646 ≤ seed.tmod 2147483647 ∧
      seed.tmod 2147483647 ≤ 2147483646 := by
    cases seed with
    | ofNat a =>
      have h1 : Int.tmod (Int.ofNat a) 2147483647 =
          Int.ofNat (a % 2147483647) := rfl
      have h2 := Nat.mod_lt a (show 0 < 2147483647 by omega)
      rw [h1, Int.ofNat_eq_natCast]
      omega
    | negSucc a =>
      have h1 : Int.tmod (Int.negSucc a) 2147483647 =
          -Int.ofNat ((a + 1) % 2147483647) := rfl
      have h2 := Nat.mod_lt (a + 1) (show 0 < 2147483647 by omega)
      rw [h1, Int.ofNat_eq_natCast]
      omega
  have hinit : 1 ≤ lcgInit seed ∧ lcgInit seed ≤ 2147483646 := by
    simp only [lcgInit]
    split_ifs with hle <;> omega
  have hstep : ∀ s : Nat, 1 ≤ s → s ≤ 2147483646 →
      1 ≤ lcgNext s ∧ lcgNext s ≤ 2147483646 := by
    intro s h1 h2
    unfold lcgNext
    constructor
    · by_contra hz
      push_neg at hz
      have hz0 : s * 16807 % 2147483647 = 0 := by omega
      have hdvd : 2147483647 ∣ s * 16807 := Nat.dvd_of_mod_eq_zero hz0
      have hcop : Nat.Coprime 2147483647 16807 := by decide
      have hdvds : 2147483647 ∣ s := hcop.dvd_of_dvd_mul_right hdvd
      have := Nat.le_of_dvd (by omega) hdvds
      omega
    · have := Nat.mod_lt (s * 16807) (show 0 < 2147483647 by omega)
      omega
  have hstate : ∀ k, 1 ≤ lcgState seed k ∧ lcgState seed k ≤ 2147483646 := by
    intro k
    induction k with
    | zero => exact hstep _ (by omega) (by omega)
    | succ k ih => exact hstep _ ih.1 ih.2
  refine ⟨hinit, ?_⟩
  intro k
  obtain ⟨h1, h2⟩ := hstate k
  unfold lcgValue
  constructor
  · apply div_nonneg _ (by norm_num)
    have hge : (1 : ℚ) ≤ (lcgState seed k : ℚ) := by exact_mod_cast h1
    linarith
  · rw [div_lt_one (by norm_num)]
    have hle : ((lcgState seed k : ℚ)) ≤ 2147483646 := by exact_mod_cast h2
    linarith

/-- C7 witness at seed 12345 (remainder 12345, in range). -/
theorem C7_witness :
    (1 ≤ lcgInit 12345 ∧ lcgInit 12345 ≤ 2147483646) ∧
    ∀ k, 0 ≤ lcgValue 12345 k ∧ lcgValue 12345 k < 1 :=
  C7_seededRandom_range 12345 (by decide)

/-- C8. `shuffle` returns a permutation of its input (the input list itself
is left unchanged, immutability being intrinsic to the embedding), consumes
exactly `length - 1` draws (its result depends only on stream positions
`pos .. pos + length - 2`, and it advances the position by `length - 1`). -/
theorem C8_shuffle_spec (α : Type) (l : List α) (rand : RandStream) (pos : Nat)
    (hr : ∀ k, 0 ≤ rand k ∧ rand k < 1) :
    List.Perm (shuffle l rand pos).1 l ∧
    (shuffle l rand pos).2 = pos + (l.length - 1) ∧
    ∀ rand2 : RandStream,
      (∀ k, k < l.length - 1 → rand2 (pos + k) = rand (pos + k)) →
      shuffle l rand2 pos = shuffle l rand pos := by
  refine ⟨shuffle_fst_perm l rand pos, rfl, ?_⟩
  intro rand2 h
  unfold shuffle
  rw [fyLoop_congr rand2 rand _ _ _ h]

/-- C8 witness on a 3-element list and the constant-zero stream. -/
theorem C8_witness :
    List.Perm (shuffle [1, 2, 3] (fun _ => 0) 0).1 [1, 2, 3] ∧
    (shuffle [1, 2, 3] (fun _ => 0) 0).2 =
      0 + (([1, 2, 3] : List Nat).length - 1) ∧
    ∀ rand2 : RandStream,
      (∀ k, k < ([1, 2, 3] : List Nat).length - 1 →
        rand2 (0 + k) = (fun _ => (0 : ℚ)) (0 + k)) →
      shuffle [1, 2, 3] rand2 0 = shuffle [1, 2, 3] (fun _ => 0) 0 :=
  C8_shuffle_spec Nat [1, 2, 3] (fun _ => 0) 0
    (fun _ => ⟨by norm_num, by norm_num⟩)

/-- C9. Degenerate inputs (`sampleCount ≤ 0` or `categoryCount ≤ 0`) make
`buildBalancedIndices` return the empty sequence without consuming draws
(the returned stream position equals the input position) and without
raising an error. -/
theorem C9_buildBalancedIndices_degenerate (L C : Int) (rand : RandStream)
    (pos : Nat) (h : C ≤ 0 ∨ L ≤ 0) :
    buildBalancedIndices L C rand pos = ([], pos) := by
  rw [buildBalancedIndices, if_pos h]

/-- C9 witness at categoryCount -2, sampleCount 5. -/
theorem C9_witness :
    buildBalancedIndices (-2) 5 (fun _ => 0) 7 = ([], 7) :=
  C9_buildBalancedIndices_degenerate (-2) 5 (fun _ => 0) 7
    (Or.inr (by norm_num))

/-- C1. For every trial produced by `generateBlockPlan`, in every condition,
exactly one of the trial's 8 items matches the trial's target criterion
(color name for `color`, shape name for `shape`, both for `combined`), that
item's id equals the trial's `correctItemId`, and `findItemForTarget`
succeeds (its error branches are never reached). -/
theorem C1_generateBlockPlan_unique_target (n bi bo : Nat) (cond : Condition)
    (p m : Nat) :
    ∃ plan, generateBlockPlan n bi bo cond p m = Except.ok plan ∧
      ∀ tr ∈ plan.trials,
        tr.items.length = 8 ∧
        tr.items.countP (matchesTarget cond tr.targetColor tr.targetShape) = 1 ∧
        (∀ it ∈ tr.items,
          matchesTarget cond tr.targetColor tr.targetShape it = true →
          it.id = tr.correctItemId) ∧
        (∃ ci, findItemForTarget tr.items tr.targetColor tr.targetShape cond =
          Except.ok ci ∧ ci.id = tr.correctItemId) := by
  obtain ⟨plan, hok, -, -, -, htr, -, -⟩ :=
    generateBlockPlan_spec n bi bo cond p m
  refine ⟨plan, hok, ?_⟩
  intro tr htrmem
  rw [htr] at htrmem
  obtain ⟨t, -, rfl⟩ := List.mem_map.1 htrmem
  obtain ⟨tr2, htrq, -, -, -, -, hlen, hcnt, huniq, hfind⟩ :=
    buildTrial_spec n bi bo cond p _ _ t
      (getD_lt_of_forall (quad_bci_mem n bi bo p m) (by omega))
      (getD_lt_of_forall (quad_bsi_mem n bi bo p m) (by omega))
  rw [htrq]
  simp only [forceOkTrial]
  exact ⟨hlen, hcnt, huniq, hfind⟩

/-- C1 witness at a concrete combined-condition call. -/
theorem C1_witness :
    ∃ plan, generateBlockPlan 123456 0 1 Condition.combined 3 10 =
        Except.ok plan ∧
      ∀ tr ∈ plan.trials,
        tr.items.length = 8 ∧
        tr.items.countP
          (matchesTarget Condition.combined tr.targetColor tr.targetShape)
          = 1 ∧
        (∀ it ∈ tr.items,
          matchesTarget Condition.combined tr.targetColor tr.targetShape it
            = true → it.id = tr.correctItemId) ∧
        (∃ ci, findItemForTarget tr.items tr.targetColor tr.targetShape
            Condition.combined = Except.ok ci ∧ ci.id = tr.correctItemId) :=
  C1_generateBlockPlan_unique_target 123456 0 1 Condition.combined 3 10

/-- C2. For every `generateBlockPlan` call, the measured-trial per-category
target counts have spread at most 1: for the color marginal in the `color`
and `combined` conditions, and for the shape marginal in the `shape` and
`combined` conditions; with `measuredTrials = 10` over the 8 categories,
exactly 2 categories receive count 2 and 6 receive count 1. -/
theorem C2_generateBlockPlan_balanced (n bi bo : Nat) (cond : Condition)
    (p m : Nat) :
    ∃ plan, generateBlockPlan n bi bo cond p m = Except.ok plan ∧
      (cond ≠ Condition.shape →
        (∀ i, i < 8 → ∀ j, j < 8 →
          measuredColorCount plan (nameOfColor i) ≤
            measuredColorCount plan (nameOfColor j) + 1) ∧
        (m = 10 →
          ((List.range 8).filter
            (fun i => measuredColorCount plan (nameOfColor i) = 2)).length
            = 2 ∧
          ((List.range 8).filter
            (fun i => measuredColorCount plan (nameOfColor i) = 1)).length
            = 6)) ∧
      (cond ≠ Condition.color →
        (∀ i, i < 8 → ∀ j, j < 8 →
          measuredShapeCount plan (nameOfShape i) ≤
            measuredShapeCount plan (nameOfShape j) + 1) ∧
        (m = 10 →
          ((List.range 8).filter
            (fun i => measuredShapeCount plan (nameOfShape i) = 2)).length
            = 2 ∧
          ((List.range 8).filter
            (fun i => measuredShapeCount plan (nameOfShape i) = 1)).length
            = 6)) := by
  obtain ⟨plan, hok, -, -, -, -, -, -⟩ :=
    generateBlockPlan_spec n bi bo cond p m
  refine ⟨plan, hok, ?_, ?_⟩
  · intro hcond
    have hcc : ∀ i, i < 8 → measuredColorCount plan (nameOfColor i) =
        (blockIndexQuad n bi bo p m).2.1.count i :=
      fun i hi => measured_color_count_eq n bi bo cond p m plan hok hcond i hi
    rcases Nat.eq_zero_or_pos m with hm0 | hm
    · subst hm0
      have hnil : (blockIndexQuad n bi bo p 0).2.1 = [] :=
        List.eq_nil_of_length_eq_zero (quad_mci_length n bi bo p 0)
      refine ⟨?_, by omega⟩
      intro i hi j hj
      rw [hcc i hi, hcc j hj, hnil]
      simp
    · simp only [quad_mci_eq] at hcc
      obtain ⟨extra, hnd, hmemx, hlenx, hcnt⟩ :=
        bbi_count8 (COLORS.length : Int) rfl m hm
          (lcgStream (blockSeed n bi bo))
          (buildBalancedIndices (SHAPES.length : Int) (p : Int)
            (lcgStream (blockSeed n bi bo))
            (buildBalancedIndices (COLORS.length : Int) (p : Int)
              (lcgStream (blockSeed n bi bo)) 0).2).2
      constructor
      · intro i hi j hj
        rw [hcc i hi, hcc j hj, hcnt i hi, hcnt j hj]
        split_ifs <;> omega
      · intro h10
        subst h10
        refine filter_count_two_six _ extra hnd hmemx (by omega) ?_
        intro i hi
        rw [hcc i hi, hcnt i hi]
  · intro hcond
    have hcc : ∀ i, i < 8 → measuredShapeCount plan (nameOfShape i) =
        (blockIndexQuad n bi bo p m).2.2.count i :=
      fun i hi => measured_shape_count_eq n bi bo cond p m plan hok hcond i hi
    rcases Nat.eq_zero_or_pos m with hm0 | hm
    · subst hm0
      have hnil : (blockIndexQuad n bi bo p 0).2.2 = [] :=
        List.eq_nil_of_length_eq_zero (quad_msi_length n bi bo p 0)
      refine ⟨?_, by omega⟩
      intro i hi j hj
      rw [hcc i hi, hcc j hj, hnil]
      simp
    · simp only [quad_msi_eq] at hcc
      obtain ⟨extra, hnd, hmemx, hlenx, hcnt⟩ :=
        bbi_count8 (SHAPES.length : Int) rfl m hm
          (lcgStream (blockSeed n bi bo))
          (buildBalancedIndices (COLORS.length : Int) (m : Int)
            (lcgStream (blockSeed n bi bo))
            (buildBalancedIndices (SHAPES.length : Int) (p : Int)
              (lcgStream (blockSeed n bi bo))
              (buildBalancedIndices (COLORS.length : Int) (p : Int)
                (lcgStream (blockSeed n bi bo)) 0).2).2).2
      constructor
      · intro i hi j hj
        rw [hcc i hi, hcc j hj, hcnt i hi, hcnt j hj]
        split_ifs <;> omega
      · intro h10
        subst h10
        refine filter_count_two_six _ extra hnd hmemx (by omega) ?_
        intro i hi
        rw [hcc i hi, hcnt i hi]

/-- C2 witness at a concrete combined-condition call with 10 measured
trials. -/
theorem C2_witness :
    ∃ plan, generateBlockPlan 123456 0 1 Condition.combined 3 10 =
        Except.ok plan ∧
      (Condition.combined ≠ Condition.shape →
        (∀ i, i < 8 → ∀ j, j < 8 →
          measuredColorCount plan (nameOfColor i) ≤
            measuredColorCount plan (nameOfColor j) + 1) ∧
        ((10 : Nat) = 10 →
          ((List.range 8).filter
            (fun i => measuredColorCount plan (nameOfColor i) = 2)).length
            = 2 ∧
          ((List.range 8).filter
            (fun i => measuredColorCount plan (nameOfColor i) = 1)).length
            = 6)) ∧
      (Condition.combined ≠ Condition.color →
        (∀ i, i < 8 → ∀ j, j < 8 →
          measuredShapeCount plan (nameOfShape i) ≤
            measuredShapeCount plan (nameOfShape j) + 1) ∧
        ((10 : Nat) = 10 →
          ((List.range 8).filter
            (fun i => measuredShapeCount plan (nameOfShape i) = 2)).length
            = 2 ∧
          ((List.range 8).filter
            (fun i => measuredShapeCount plan (nameOfShape i) = 1)).length
            = 6)) :=
  C2_generateBlockPlan_balanced 123456 0 1 Condition.combined 3 10

/-- C5. Every `generateBlockPlan` call with practiceTrials = p and
measuredTrials = m returns exactly p + m trials in presentation order, of
which exactly the first p are flagged practice and the remaining m are not;
the plan's recorded practice/measured counts equal p and m. -/
theorem C5_generateBlockPlan_trial_counts (n bi bo : Nat) (cond : Condition)
    (p m : Nat) :
    ∃ plan, generateBlockPlan n bi bo cond p m = Except.ok plan ∧
      plan.trials.length = p + m ∧
      (∀ k, k < p + m →
        ((plan.trials.getD k dummyTrial).isPractice = true ↔ k < p)) ∧
      plan.practiceTrials = p ∧ plan.measuredTrials = m := by
  obtain ⟨plan, hok, -, -, -, htr, hpt, hmt⟩ :=
    generateBlockPlan_spec n bi bo cond p m
  have hcB : ∀ t : Nat,
      ((blockIndexQuad n bi bo p m).1.1 ++
        (blockIndexQuad n bi bo p m).2.1).getD t 0 < 8 :=
    fun t => getD_lt_of_forall (quad_bci_mem n bi bo p m) (by omega)
  have hsB : ∀ t : Nat,
      ((blockIndexQuad n bi bo p m).1.2 ++
        (blockIndexQuad n bi bo p m).2.2).getD t 0 < 8 :=
    fun t => getD_lt_of_forall (quad_bsi_mem n bi bo p m) (by omega)
  have hisP : ∀ t : Nat,
      (forceOkTrial (buildTrial n bi bo cond p
        ((blockIndexQuad n bi bo p m).1.1 ++ (blockIndexQuad n bi bo p m).2.1)
        ((blockIndexQuad n bi bo p m).1.2 ++ (blockIndexQuad n bi bo p m).2.2)
        t)).isPractice = decide (t < p) := by
    intro t
    obtain ⟨tr, htrq, -, hp2, -, -, -, -, -, -⟩ :=
      buildTrial_spec n bi bo cond p _ _ t (hcB t) (hsB t)
    rw [htrq]
    simpa [forceOkTrial] using hp2
  have hlen : plan.trials.length = p + m := by
    rw [htr]
    simp
  refine ⟨plan, hok, hlen, ?_, ?_, ?_⟩
  · intro k hk
    have hklen : k < plan.trials.length := by omega
    rw [List.getD_eq_getElem _ _ hklen]
    have hget : plan.trials[k] = forceOkTrial (buildTrial n bi bo cond p
        ((blockIndexQuad n bi bo p m).1.1 ++ (blockIndexQuad n bi bo p m).2.1)
        ((blockIndexQuad n bi bo p m).1.2 ++ (blockIndexQuad n bi bo p m).2.2)
        k) := by
      rw [List.getElem_of_eq htr hklen]
      simp
    rw [hget, hisP k]
    simp
  · rw [hpt, htr, ← List.countP_eq_length_filter]
    rw [countP_map_congr _ _ (fun t => decide (t < p)) _
      (fun t _ => hisP t)]
    rw [List.range_add, List.countP_append]
    have h1 : (List.range p).countP (fun t => decide (t < p)) =
        (List.range p).length :=
      List.countP_eq_length.2 (fun t ht => by
        simpa using List.mem_range.1 ht)
    have h2 : ((List.range m).map (fun x => p + x)).countP
        (fun t => decide (t < p)) = 0 := by
      rw [countP_map_congr _ _ (fun _ => false) _
        (fun x _ => by simp)]
      simp
    rw [h1, h2, List.length_range]
    omega
  · rw [hmt, htr, ← List.countP_eq_length_filter]
    rw [countP_map_congr _ _ (fun t => !decide (t < p)) _
      (fun t _ => by rw [hisP t])]
    rw [List.range_add, List.countP_append]
    have h1 : (List.range p).countP (fun t => !decide (t < p)) = 0 := by
      refine List.countP_eq_zero.2 ?_
      intro t ht
      simpa using List.mem_range.1 ht
    have h2 : ((List.range m).map (fun x => p + x)).countP
        (fun t => !decide (t < p)) =
        ((List.range m)).length := by
      rw [countP_map_congr _ _ (fun _ => true) _
        (fun x _ => by simp)]
      simp [List.countP_true]
    rw [h1, h2, List.length_range]
    omega

/-- C5 witness: with the default 3 practice and 10 measured trials the plan
has 13 trials, the first 3 flagged practice. -/
theorem C5_witness :
    ∃ plan, generateBlockPlan 7 0 1 Condition.color 3 10 = Except.ok plan ∧
      plan.trials.length = 3 + 10 ∧
      (∀ k, k < 3 + 10 →
        ((plan.trials.getD k dummyTrial).isPractice = true ↔ k < 3)) ∧
      plan.practiceTrials = 3 ∧ plan.measuredTrials = 10 :=
  C5_generateBlockPlan_trial_counts 7 0 1 Condition.color 3 10

/-- C6. For every participant number, the assigned order's label is
determined by the participant number modulo 3 (0 to ABC, 1 to BCA, 2 to
CAB), is always one of those three labels, and the three rows of
`LATIN_SQUARE_3` form a Latin square: each condition appears exactly once
in each position. -/
theorem C6_latin_square_order (n : Nat) :
    (orderToLabel (getLatinSquareOrder n) =
      if n % 3 = 0 then "ABC" else if n % 3 = 1 then "BCA" else "CAB") ∧
    (orderToLabel (getLatinSquareOrder n) = "ABC" ∨
      orderToLabel (getLatinSquareOrder n) = "BCA" ∨
      orderToLabel (getLatinSquareOrder n) = "CAB") ∧
    (∀ pos, pos < 3 → ∀ c : Condition,
      ((List.range 3).filter
        (fun r => (LATIN_SQUARE_3.getD r []).getD pos Condition.color
          = c)).length = 1) := by
  have h3 : n % 3 = 0 ∨ n % 3 = 1 ∨ n % 3 = 2 := by omega
  refine ⟨?_, ?_, by decide⟩
  · rcases h3 with h | h | h <;> simp only [getLatinSquareOrder, h] <;> decide
  · rcases h3 with h | h | h <;> simp only [getLatinSquareOrder, h] <;> decide

/-- C10. `generateAllBlocks` returns exactly 3 blocks; the i-th block has
blockIndex i, blockOrder i+1, the i-th condition of the participant's Latin
square row, and is generated with 3 practice and 10 measured trials. -/
theorem C10_generateAllBlocks_spec (n : Nat) :
    ∃ blocks, generateAllBlocks n = Except.ok blocks ∧ blocks.length = 3 ∧
      ∀ i, i < 3 →
        (blocks.getD i dummyPlan).blockIndex = i ∧
        (blocks.getD i dummyPlan).blockOrder = i + 1 ∧
        (blocks.getD i dummyPlan).condition =
          (getLatinSquareOrder n).getD i Condition.color ∧
        generateBlockPlan n i (i + 1)
          ((getLatinSquareOrder n).getD i Condition.color) 3 10 =
          Except.ok (blocks.getD i dummyPlan) := by
  have horder : ∃ c0 c1 c2 : Condition,
      getLatinSquareOrder n = [c0, c1, c2] := by
    have h3 : n % 3 = 0 ∨ n % 3 = 1 ∨ n % 3 = 2 := by omega
    rcases h3 with h | h | h
    · exact ⟨Condition.color, Condition.shape, Condition.combined,
        by simp [getLatinSquareOrder, h, LATIN_SQUARE_3]⟩
    · exact ⟨Condition.shape, Condition.combined, Condition.color,
        by simp [getLatinSquareOrder, h, LATIN_SQUARE_3]⟩
    · exact ⟨Condition.combined, Condition.color, Condition.shape,
        by simp [getLatinSquareOrder, h, LATIN_SQUARE_3]⟩
  obtain ⟨c0, c1, c2, hord⟩ := horder
  obtain ⟨b0, h0, hbi0, hbo0, hc0, -, -, -⟩ :=
    generateBlockPlan_spec n 0 1 c0 3 10
  obtain ⟨b1, h1, hbi1, hbo1, hc1, -, -, -⟩ :=
    generateBlockPlan_spec n 1 2 c1 3 10
  obtain ⟨b2, h2, hbi2, hbo2, hc2, -, -, -⟩ :=
    generateBlockPlan_spec n 2 3 c2 3 10
  have hgen : generateAllBlocks n = Except.ok [b0, b1, b2] := by
    unfold generateAllBlocks
    rw [hord]
    simp only [mapIdxExceptBlock, DEFAULT_PRACTICE_TRIALS,
      DEFAULT_MEASURED_TRIALS, Nat.reduceAdd, h0, h1, h2]
  refine ⟨[b0, b1, b2], hgen, rfl, ?_⟩
  intro i hi
  interval_cases i
  · exact ⟨hbi0, hbo0, by rw [hord]; simpa using hc0,
      by rw [hord]; simpa using h0⟩
  · exact ⟨hbi1, hbo1, by rw [hord]; simpa using hc1,
      by rw [hord]; simpa using h1⟩
  · exact ⟨hbi2, hbo2, by rw [hord]; simpa using hc2,
      by rw [hord]; simpa using h2⟩

/-- C10 witness at participant number 4. -/
theorem C10_witness :
    ∃ blocks, generateAllBlocks 4 = Except.ok blocks ∧ blocks.length = 3 ∧
      ∀ i, i < 3 →
        (blocks.getD i dummyPlan).blockIndex = i ∧
        (blocks.getD i dummyPlan).blockOrder = i + 1 ∧
        (blocks.getD i dummyPlan).condition =
          (getLatinSquareOrder 4).getD i Condition.color ∧
        generateBlockPlan 4 i (i + 1)
          ((getLatinSquareOrder 4).getD i Condition.color) 3 10 =
          Except.ok (blocks.getD i dummyPlan) :=
  C10_generateAllBlocks_spec 4

/-- C6 witness at participant number 5 (5 mod 3 = 2, label CAB). -/
theorem C6_witness :
    (orderToLabel (getLatinSquareOrder 5) =
      if 5 % 3 = 0 then "ABC" else if 5 % 3 = 1 then "BCA" else "CAB") ∧
    (orderToLabel (getLatinSquareOrder 5) = "ABC" ∨
      orderToLabel (getLatinSquareOrder 5) = "BCA" ∨
      orderToLabel (getLatinSquareOrder 5) = "CAB") ∧
    (∀ pos, pos < 3 → ∀ c : Condition,
      ((List.range 3).filter
        (fun r => (LATIN_SQUARE_3.getD r []).getD pos Condition.color
          = c)).length = 1) :=
  C6_latin_square_order 5
